import Mathlib

/-!
Verification of the PwC hybrid-automation repository (Node scheduler +
Playwright login/discovery script) against its natural-language spec.

The JavaScript sources are shallowly embedded:
* `discover_api.js` (`attachApiDiscovery` / `saveApiMap`) — classification of
  observed network requests into an endpoint map;
* `login.js` (`getGmailOtp`, the OTP retry loop, the login-verification vote);
* `scheduler.js` (`rotateSessions`, `doRun` with its `runLock`).

Strings are modelled as `List Char` where character-level reasoning is needed.
JavaScript objects used as string-keyed maps are modelled as association lists
with JS assignment semantics (overwrite existing key in place, else append).
-/

namespace PwcM1

/-! ## String utilities (substring search, lowercasing, JS word characters) -/

/-- `matchesAt needle hay`: `needle` is a prefix of `hay` (char lists). -/
def matchesAt : List Char → List Char → Bool
  | [], _ => true
  | _ :: _, [] => false
  | a :: as, b :: bs => a == b && matchesAt as bs

/-- `containsSub hay needle`: `needle` occurs as a contiguous substring of
`hay`; mirrors JavaScript `hay.includes(needle)`. -/
def containsSub (hay needle : List Char) : Bool :=
  match hay with
  | [] => matchesAt needle []
  | _ :: t => matchesAt needle hay || containsSub t needle

/-- String-level wrapper for `containsSub` (JS `String.prototype.includes`). -/
def strContains (hay needle : String) : Bool :=
  containsSub hay.toList needle.toList

/-- ASCII lowercasing of a string, as JS `toLowerCase` acts on ASCII paths. -/
def lowerStr (s : String) : String :=
  String.mk (s.toList.map Char.toLower)

/-! ## Traffic Observer: `attachApiDiscovery` (discover_api.js) -/

/-- One observed request record: `{ url, method, path, query }` as built by the
`page.on('request')` handler. -/
structure ReqInfo where
  url : String
  method : String
  path : String
  query : String
deriving DecidableEq, Repr

/-- A JS object used as a map: association list, keys in insertion order. -/
abbrev JsMap := List (String × ReqInfo)

/-- JS property assignment `m[k] = v`: overwrite the value at an existing key
(keeping its position), else append the new key. -/
def jsAssign (m : JsMap) (k : String) (v : ReqInfo) : JsMap :=
  match m with
  | [] => [(k, v)]
  | (k', v') :: rest =>
    if k' == k then (k', v) :: rest else (k', v') :: jsAssign rest k v

/-- JS property lookup `m[k]`. -/
def jsLookup (m : JsMap) (k : String) : Option ReqInfo :=
  match m with
  | [] => none
  | (k', v') :: rest => if k' == k then some v' else jsLookup rest k

/-- The `apiMap` accumulator of `attachApiDiscovery`, together with the
`apiRequests` set (a JS `Set` of stringified records, i.e. deduplicated
records in insertion order). -/
structure ApiMap where
  apiRequests : List ReqInfo
  exportEndpoints : JsMap
  candidateEndpoints : JsMap
  documentEndpoints : JsMap
deriving DecidableEq, Repr

def ApiMap.empty : ApiMap := ⟨[], [], [], []⟩

/-- JS `Set.add`: append if not already present (insertion order preserved). -/
def setAdd (s : List ReqInfo) (x : ReqInfo) : List ReqInfo :=
  if s.contains x then s else s ++ [x]

/-- `url.includes('/api/') || url.includes('/Api/') || url.includes('/API/')`. -/
def hasApiMarker (url : String) : Bool :=
  strContains url "/api/" || strContains url "/Api/" || strContains url "/API/"

/-- The report-tab vocabulary of the regex
`/(todays|notstarted|draft|rejected|submitted|workinprogress|bgvclosed|inprogress)/i`,
in alternation order. -/
def tabWords : List (List Char) :=
  ["todays", "notstarted", "draft", "rejected", "submitted",
   "workinprogress", "bgvclosed", "inprogress"].map String.toList

/-- At one position, the regex alternation tries the vocabulary words in
order and yields the first that matches. -/
def firstWordAt (ws : List (List Char)) (hay : List Char) : Option (List Char) :=
  ws.find? (fun w => matchesAt w hay)

/-- Leftmost regex match of the tab-word alternation: scan positions left to
right, at each position try the alternatives in order (`lower.match(/.../i)`,
the subject already lowercased). Returns the matched word. -/
def findTab : List Char → Option (List Char)
  | [] => firstWordAt tabWords []
  | c :: t =>
    match firstWordAt tabWords (c :: t) with
    | some w => some w
    | none => findTab t

/-- `lower.includes('export') || lower.includes('download') || lower.includes('excel')`. -/
def isExportPath (lower : List Char) : Bool :=
  containsSub lower "export".toList || containsSub lower "download".toList ||
    containsSub lower "excel".toList

/-- `lower.includes('candidate') || lower.includes('candidat')`. -/
def isCandidatePath (lower : List Char) : Bool :=
  containsSub lower "candidate".toList || containsSub lower "candidat".toList

/-- `lower.includes('document') || lower.includes('doc')`. -/
def isDocumentPath (lower : List Char) : Bool :=
  containsSub lower "document".toList || containsSub lower "doc".toList

/-- The `page.on('request')` handler body of `attachApiDiscovery`: record the
request in the `apiRequests` set if it carries an API marker, then classify it
first-match-wins into export / candidate / document groups. -/
def onRequest (m : ApiMap) (info : ReqInfo) : ApiMap :=
  if hasApiMarker info.url then
    let m1 : ApiMap := { m with apiRequests := setAdd m.apiRequests info }
    let lower := (lowerStr info.path).toList
    if isExportPath lower then
      match findTab lower with
      | some w =>
        { m1 with exportEndpoints := jsAssign m1.exportEndpoints (String.mk w) info }
      | none =>
        { m1 with exportEndpoints := jsAssign m1.exportEndpoints info.path info }
    else if isCandidatePath lower then
      { m1 with candidateEndpoints := jsAssign m1.candidateEndpoints info.path info }
    else if isDocumentPath lower then
      { m1 with documentEndpoints := jsAssign m1.documentEndpoints info.path info }
    else m1
  else m

/-- Observe a whole sequence of requests (the handler fires per request). -/
def observeAll (reqs : List ReqInfo) : ApiMap :=
  reqs.foldl onRequest ApiMap.empty

/-- The persisted `endpoints` list written by `saveApiMap`:
`Array.from(apiRequests).map(JSON.parse)`, i.e. the deduplicated records in
insertion order. -/
def savedEndpoints (reqs : List ReqInfo) : List ReqInfo :=
  (observeAll reqs).apiRequests

/-! ## OTP extraction: the regex `\b(\d{6})\b` of `getGmailOtp` (login.js) -/

/-- JS regex word character (`\w` without the unicode flag): `[A-Za-z0-9_]`. -/
def isWordChar (c : Char) : Bool :=
  c.isAlpha || c.isDigit || c == '_'

/-- `\b` holds before the match position: the previous character (if any) is
not a word character. -/
def prevBoundary : Option Char → Bool
  | none => true
  | some p => !isWordChar p

/-- `\b` holds after the six digits: the following character (if any) is not a
word character. -/
def nextBoundary : List Char → Bool
  | [] => true
  | d :: _ => !isWordChar d

/-- `\d{6}\b` matches at the head of `cs`: six ASCII digits followed by a
non-word character or the end of input. -/
def sixDigitsHere (cs : List Char) : Bool :=
  decide ((cs.take 6).length = 6) && (cs.take 6).all Char.isDigit &&
    nextBoundary (cs.drop 6)

/-- Backtracking scan of `text.match(/\b(\d{6})\b/)`: positions are tried left
to right, `prev` is the character immediately before the current position. -/
def scanOtp (prev : Option Char) : List Char → Option (List Char)
  | [] => none
  | c :: t =>
    if prevBoundary prev && sixDigitsHere (c :: t) then some ((c :: t).take 6)
    else scanOtp (some c) t

/-- The extraction step of `getGmailOtp`: first word-bounded six-digit match
of the concatenated email text, or the documented error. -/
def getGmailOtpExtract (text : String) : Except String String :=
  match scanOtp none text.toList with
  | some c => .ok (String.mk c)
  | none => .error "OTP code not found in email body (expected 6-digit code)"

/-- `getGmailOtp` applies the regex to `parts.join('\n')` — the email snippet
followed by every decoded body part. -/
def getGmailOtpFromParts (parts : List String) : Except String String :=
  getGmailOtpExtract (String.intercalate "\n" parts)

/-- Specification-side predicate: the regex `\b\d{6}\b` matches at position
`i` of `cs` when scanning with `prev` before position 0. -/
def prevCharAt (prev : Option Char) (cs : List Char) : Nat → Option Char
  | 0 => prev
  | Nat.succ j => (cs.drop j).head?

/-- The regex `\b\d{6}\b` matches starting at index `i`. -/
def boundedSixAt (prev : Option Char) (cs : List Char) (i : Nat) : Bool :=
  prevBoundary (prevCharAt prev cs i) && sixDigitsHere (cs.drop i)

/-! ## Session rotation: `rotateSessions` (scheduler.js) -/

/-- A session-state file in `/tmp`: name plus `mtimeMs` from `fs.stat`. -/
structure SFile where
  name : String
  mtime : Nat
deriving DecidableEq, Repr

/-- The comparator `(a, b) => b.t - a.t`: sort by modification time
descending. -/
def mtimeGe (a b : SFile) : Prop := b.mtime ≤ a.mtime

instance : DecidableRel mtimeGe := fun a b => Nat.decLe b.mtime a.mtime

instance : IsTotal SFile mtimeGe :=
  ⟨fun a b => Nat.le_total b.mtime a.mtime⟩

instance : IsTrans SFile mtimeGe :=
  ⟨fun _ _ _ hab hbc => Nat.le_trans hbc hab⟩

/-- Mirrors JS `name.endsWith(suffix)` on ASCII names, by reversed lists. -/
def strEndsWith (s suffix : String) : Bool :=
  matchesAt suffix.toList.reverse s.toList.reverse

/-- `rotateSessions`: list the `.json` files of the directory, sort them by
modification time descending, keep the first three and unlink the rest.
Returns the directory contents after the unlinks. -/
def rotateSessions (dir : List SFile) : List SFile :=
  let files := dir.filter (fun f => strEndsWith f.name ".json")
  let sorted := List.insertionSort mtimeGe files
  let deleted := (sorted.drop 3).map SFile.name
  dir.filter (fun f => !(deleted.contains f.name))

/-! ## The scheduler run loop: `doRun` and `runLock` (scheduler.js) -/

/-- The `triggerSource` argument of `doRun` ('scheduler' is the default). -/
inductive TriggerSource
  | scheduler | manual | startup | interval
deriving DecidableEq, Repr

/-- The externally visible steps the body of `doRun` performs, in order. -/
inductive RunAction
  | rotate | login | readMap | healthCheck | triggerFetch
deriving DecidableEq, Repr

/-- The `{ ok, message }` part of a `doRun` response. -/
structure Response where
  ok : Bool
  message : String
deriving DecidableEq, Repr

/-- Outcome of the `fetch(EXPORT_SERVICE_URL/trigger-fetch)` call: `res.ok`. -/
structure FetchResp where
  ok : Bool
deriving DecidableEq, Repr

/-- The environment a run executes against: each fallible step either
succeeds or throws with a message.  `readFile`/`JSON.parse` of the api map
and the health check swallow their own errors in the source, so they carry
no outcome here. -/
structure RunEnv where
  rotateOutcome : Except String Unit
  loginOutcome : Except String Unit
  fetchOutcome : Except String FetchResp
deriving Repr

/-- The `try` block of `doRun`: rotate sessions, run `loginAndDiscover`, read
the api map, health-check the export service, POST `/trigger-fetch`.  Returns
the produced response (or the thrown error) plus the actions that started. -/
def runBody (env : RunEnv) : Except String Response × List RunAction :=
  match env.rotateOutcome with
  | .error e => (.error e, [RunAction.rotate])
  | .ok _ =>
    match env.loginOutcome with
    | .error e => (.error e, [RunAction.rotate, RunAction.login])
    | .ok _ =>
      let acts := [RunAction.rotate, RunAction.login, RunAction.readMap,
                   RunAction.healthCheck, RunAction.triggerFetch]
      match env.fetchOutcome with
      | .error e => (.error e, acts)
      | .ok r =>
        if r.ok then (.ok ⟨true, "Run started"⟩, acts)
        else (.ok ⟨false, "Export trigger failed"⟩, acts)

/-- Result of one `doRun` invocation: the returned response, the value of
`runLock` after the invocation, and the actions the invocation started. -/
structure RunResult where
  response : Response
  lockAfter : Bool
  actions : List RunAction
deriving DecidableEq, Repr

/-- `doRun`: reject immediately when `runLock` is set; otherwise take the
lock, execute the body, turn a thrown error into an `{ok:false}` response
(the `catch`), and release the lock (the `finally`). -/
def doRun (_trigger : TriggerSource) (runLock : Bool) (env : RunEnv) : RunResult :=
  if runLock then ⟨⟨false, "Run in progress"⟩, runLock, []⟩
  else
    match runBody env with
    | (.ok resp, acts) => ⟨resp, false, acts⟩
    | (.error e, acts) => ⟨⟨false, e⟩, false, acts⟩

/-! ## Login verification: the success vote at the end of `loginAndDiscover` -/

/-- A browser cookie as inspected by the verification code. -/
structure Cookie where
  name : String
  domain : String
deriving DecidableEq, Repr

/-- Everything the verification block observes about the page after OTP
submission.  The three named selectors plus `body` are the entries of
`selectorsToTry`; `bodyText` is `page.textContent('body')` with errors
replaced by the empty string. -/
structure VerifyObs where
  currentUrl : String
  tableVisible : Bool
  dashboardVisible : Bool
  bgvTextVisible : Bool
  bodyVisible : Bool
  cookies : List Cookie
  bodyText : String
deriving DecidableEq, Repr

/-- `currentUrl.includes('compliancenomination') || currentUrl.includes('pwc.com')`
(the indicator-only URL check). -/
def urlIndicator (u : String) : Bool :=
  strContains u "compliancenomination" || strContains u "pwc.com"

/-- `currentUrl.includes('pwc.com') || currentUrl.includes('compliancenomination')`
(the guard of the body-text check). -/
def urlForBodyCheck (u : String) : Bool :=
  strContains u "pwc.com" || strContains u "compliancenomination"

/-- The `selectorsToTry` loop: first visible selector that is not `body`
sets `loginSuccess` and breaks; `body` only records an indicator. -/
def selectorLoop : List (Bool × Bool) → Bool
  | [] => false
  | (vis, isBody) :: rest => if vis && !isBody then true else selectorLoop rest

/-- One cookie looks authentication-related: name contains `session`,
`token` or `auth`, or domain contains `pwc.com`. -/
def authLike (c : Cookie) : Bool :=
  strContains c.name "session" || strContains c.name "token" ||
    strContains c.name "auth" || strContains c.domain "pwc.com"

/-- The body-text heuristic: non-empty, longer than 100 characters and the
lowercased text contains neither `sign in` nor `login`. -/
def bodyLooksLoggedIn (bodyText : String) : Bool :=
  !(bodyText == "") && decide (100 < bodyText.length) &&
    !strContains (lowerStr bodyText) "sign in" &&
    !strContains (lowerStr bodyText) "login"

/-- The verification vote, statement by statement: the element loop, then the
cookie check (guarded by `!loginSuccess && cookies.length > 0`), then the
body-text check (guarded by `!loginSuccess` and the URL predicate). -/
def verifyLoginSuccess (o : VerifyObs) : Bool :=
  let s0 := selectorLoop [(o.tableVisible, false), (o.dashboardVisible, false),
                          (o.bgvTextVisible, false), (o.bodyVisible, true)]
  let s1 := if !s0 && decide (0 < o.cookies.length) then
              (if o.cookies.any authLike then true else s0)
            else s0
  let s2 := if !s1 && urlForBodyCheck o.currentUrl then
              (if bodyLooksLoggedIn o.bodyText then true else s1)
            else s1
  s2

/-- A terminal login failure; `screenshotCaptured` records that the failure
path takes a diagnostic screenshot before throwing. -/
structure VerifyFailure where
  message : String
  screenshotCaptured : Bool
deriving DecidableEq, Repr

/-- The tail of `loginAndDiscover`: throw `Login incomplete` (after a
screenshot) when the vote fails, otherwise proceed. -/
def verifyLogin (o : VerifyObs) : Except VerifyFailure Unit :=
  if verifyLoginSuccess o then .ok ()
  else .error ⟨"Login incomplete - could not verify success", true⟩

/-! ## OTP retry loop of `loginAndDiscover` (3 attempts, 5 s apart) -/

/-- The `for (attempt = 0; attempt < 3; attempt++)` retry around
`getGmailOtp`, unrolled as in the source.  `f i` is the outcome of attempt
`i`.  Returns the final outcome, the number of attempts made, and the list
of sleeps (ms) performed between attempts. -/
def fetchOtpWithRetry (f : Nat → Except String String) :
    Except String String × Nat × List Nat :=
  match f 0 with
  | .ok c => (.ok c, 1, [])
  | .error _ =>
    match f 1 with
    | .ok c => (.ok c, 2, [5000])
    | .error _ =>
      match f 2 with
      | .ok c => (.ok c, 3, [5000, 5000])
      | .error e =>
        (.error ("Failed to fetch OTP from Gmail after 3 attempts: " ++ e),
         3, [5000, 5000])

/-- The code submitted into the OTP field (`found.locator.fill(otp)`) is the
retry loop's successful result. -/
def submittedOtp (f : Nat → Except String String) : Except String String :=
  (fetchOtpWithRetry f).1

/-! ## Lemmas about the JS-object map operations -/

theorem jsLookup_jsAssign_self (m : JsMap) (k : String) (v : ReqInfo) :
    jsLookup (jsAssign m k v) k = some v := by
  induction m with
  | nil => simp [jsAssign, jsLookup]
  | cons hd tl ih =>
    obtain ⟨a, b⟩ := hd
    by_cases h : a == k <;> simp [jsAssign, jsLookup, h, ih]

theorem jsLookup_jsAssign_cases (m : JsMap) (k k' : String) (v w : ReqInfo)
    (h : jsLookup (jsAssign m k v) k' = some w) :
    w = v ∨ jsLookup m k' = some w := by
  induction m with
  | nil =>
    simp only [jsAssign, jsLookup] at h
    split at h
    · exact Or.inl (Option.some.inj h).symm
    · exact absurd h (by simp)
  | cons hd tl ih =>
    obtain ⟨a, b⟩ := hd
    by_cases hak : a == k
    · simp only [jsAssign, hak, if_true] at h
      by_cases hak' : a == k'
      · simp only [jsLookup, hak', if_true] at h ⊢
        exact Or.inl (Option.some.inj h).symm
      · simp only [jsLookup, hak', if_false] at h ⊢
        exact Or.inr h
    · simp only [jsAssign, hak, if_false] at h
      by_cases hak' : a == k'
      · simp only [jsLookup, hak', if_true] at h ⊢
        exact Or.inr h
      · simp only [jsLookup, hak', if_false] at h ⊢
        exact ih h

theorem jsAssign_jsAssign_same (m : JsMap) (k : String) (v : ReqInfo) :
    jsAssign (jsAssign m k v) k v = jsAssign m k v := by
  induction m with
  | nil => simp [jsAssign]
  | cons hd tl ih =>
    obtain ⟨a, b⟩ := hd
    by_cases h : a == k <;> simp [jsAssign, h, ih]

theorem setAdd_eq_ite (s : List ReqInfo) (y : ReqInfo) :
    setAdd s y = if s.contains y = true then s else s ++ [y] := rfl

theorem mem_setAdd (s : List ReqInfo) (x y : ReqInfo) :
    x ∈ setAdd s y ↔ x ∈ s ∨ x = y := by
  by_cases h : y ∈ s
  · have hc : s.contains y = true := by simpa using h
    rw [setAdd_eq_ite, if_pos hc]
    constructor
    · exact Or.inl
    · rintro (hx | rfl)
      · exact hx
      · exact h
  · have hc : ¬ s.contains y = true := by simpa using h
    rw [setAdd_eq_ite, if_neg hc]
    simp

theorem setAdd_setAdd_same (s : List ReqInfo) (x : ReqInfo) :
    setAdd (setAdd s x) x = setAdd s x := by
  have hx : x ∈ setAdd s x := (mem_setAdd s x x).mpr (Or.inr rfl)
  have hc : (setAdd s x).contains x = true := by simpa using hx
  rw [setAdd_eq_ite (setAdd s x) x, if_pos hc]

/-! ## Lemmas about the tab-word regex -/

theorem findTab_eq_none_iff (cs : List Char) :
    findTab cs = none ↔ ∀ w ∈ tabWords, containsSub cs w = false := by
  induction cs with
  | nil =>
    constructor
    · intro _; decide
    · intro _; decide
  | cons c t ih =>
    unfold findTab
    constructor
    · intro h w hw
      rcases hfw : firstWordAt tabWords (c :: t) with _ | w'
      · rw [hfw] at h
        have hall := List.find?_eq_none.mp hfw
        have h1 : matchesAt w (c :: t) = false :=
          Bool.not_eq_true _ ▸ by simpa using hall w hw
        have h2 := ih.mp h w hw
        show (matchesAt w (c :: t) || containsSub t w) = false
        rw [h1, h2]; rfl
      · rw [hfw] at h; exact absurd h (by simp)
    · intro hall
      have hfw : firstWordAt tabWords (c :: t) = none := by
        apply List.find?_eq_none.mpr
        intro w hw
        have := hall w hw
        have : (matchesAt w (c :: t) || containsSub t w) = false := this
        simp only [Bool.or_eq_false_iff] at this
        simp [this.1]
      rw [hfw]
      apply ih.mpr
      intro w hw
      have := hall w hw
      have h2 : (matchesAt w (c :: t) || containsSub t w) = false := this
      simp only [Bool.or_eq_false_iff] at h2
      exact h2.2

/-! ## Branch lemmas for `onRequest` -/

theorem onRequest_nomarker (m : ApiMap) (r : ReqInfo)
    (hm : hasApiMarker r.url = false) : onRequest m r = m := by
  simp [onRequest, hm]

theorem onRequest_export_some (m : ApiMap) (r : ReqInfo) (w : List Char)
    (hm : hasApiMarker r.url = true)
    (he : isExportPath (lowerStr r.path).toList = true)
    (hft : findTab (lowerStr r.path).toList = some w) :
    onRequest m r =
      { m with apiRequests := setAdd m.apiRequests r,
               exportEndpoints := jsAssign m.exportEndpoints (String.mk w) r } := by
  simp only [onRequest, String.toList] at hft he ⊢
  simp [hm, he, hft]

theorem onRequest_export_none (m : ApiMap) (r : ReqInfo)
    (hm : hasApiMarker r.url = true)
    (he : isExportPath (lowerStr r.path).toList = true)
    (hft : findTab (lowerStr r.path).toList = none) :
    onRequest m r =
      { m with apiRequests := setAdd m.apiRequests r,
               exportEndpoints := jsAssign m.exportEndpoints r.path r } := by
  simp only [onRequest, String.toList] at hft he ⊢
  simp [hm, he, hft]

theorem onRequest_candidate (m : ApiMap) (r : ReqInfo)
    (hm : hasApiMarker r.url = true)
    (he : isExportPath (lowerStr r.path).toList = false)
    (hc : isCandidatePath (lowerStr r.path).toList = true) :
    onRequest m r =
      { m with apiRequests := setAdd m.apiRequests r,
               candidateEndpoints := jsAssign m.candidateEndpoints r.path r } := by
  simp only [onRequest, String.toList] at he hc ⊢
  simp [hm, he, hc]

theorem onRequest_document (m : ApiMap) (r : ReqInfo)
    (hm : hasApiMarker r.url = true)
    (he : isExportPath (lowerStr r.path).toList = false)
    (hc : isCandidatePath (lowerStr r.path).toList = false)
    (hd : isDocumentPath (lowerStr r.path).toList = true) :
    onRequest m r =
      { m with apiRequests := setAdd m.apiRequests r,
               documentEndpoints := jsAssign m.documentEndpoints r.path r } := by
  simp only [onRequest, String.toList] at he hc hd ⊢
  simp [hm, he, hc, hd]

theorem onRequest_unmatched (m : ApiMap) (r : ReqInfo)
    (hm : hasApiMarker r.url = true)
    (he : isExportPath (lowerStr r.path).toList = false)
    (hc : isCandidatePath (lowerStr r.path).toList = false)
    (hd : isDocumentPath (lowerStr r.path).toList = false) :
    onRequest m r = { m with apiRequests := setAdd m.apiRequests r } := by
  simp only [onRequest, String.toList] at he hc hd ⊢
  simp [hm, he, hc, hd]

theorem onRequest_apiRequests (m : ApiMap) (r : ReqInfo) :
    (onRequest m r).apiRequests =
      if hasApiMarker r.url = true then setAdd m.apiRequests r else m.apiRequests := by
  by_cases h : hasApiMarker r.url = true
  · simp only [onRequest, h, if_true]
    split
    · split <;> rfl
    · split
      · rfl
      · split <;> rfl
  · simp [onRequest, h]

theorem exportEndpoints_onRequest_cases (m : ApiMap) (r : ReqInfo) :
    (onRequest m r).exportEndpoints = m.exportEndpoints ∨
      (isExportPath (lowerStr r.path).toList = true ∧
        ∃ k, (onRequest m r).exportEndpoints = jsAssign m.exportEndpoints k r) := by
  by_cases hm : hasApiMarker r.url = true
  · by_cases he : isExportPath (lowerStr r.path).toList = true
    · rcases hft : findTab (lowerStr r.path).toList with _ | w
      · exact Or.inr ⟨he, r.path, by rw [onRequest_export_none m r hm he hft]⟩
      · exact Or.inr ⟨he, String.mk w, by rw [onRequest_export_some m r w hm he hft]⟩
    · rw [Bool.not_eq_true] at he
      by_cases hc : isCandidatePath (lowerStr r.path).toList = true
      · exact Or.inl (by rw [onRequest_candidate m r hm he hc])
      · rw [Bool.not_eq_true] at hc
        by_cases hd : isDocumentPath (lowerStr r.path).toList = true
        · exact Or.inl (by rw [onRequest_document m r hm he hc hd])
        · rw [Bool.not_eq_true] at hd
          exact Or.inl (by rw [onRequest_unmatched m r hm he hc hd])
  · rw [Bool.not_eq_true] at hm
    exact Or.inl (by rw [onRequest_nomarker m r hm])

theorem candidateEndpoints_onRequest_cases (m : ApiMap) (r : ReqInfo) :
    (onRequest m r).candidateEndpoints = m.candidateEndpoints ∨
      (isCandidatePath (lowerStr r.path).toList = true ∧
        ∃ k, (onRequest m r).candidateEndpoints = jsAssign m.candidateEndpoints k r) := by
  by_cases hm : hasApiMarker r.url = true
  · by_cases he : isExportPath (lowerStr r.path).toList = true
    · rcases hft : findTab (lowerStr r.path).toList with _ | w
      · exact Or.inl (by rw [onRequest_export_none m r hm he hft])
      · exact Or.inl (by rw [onRequest_export_some m r w hm he hft])
    · rw [Bool.not_eq_true] at he
      by_cases hc : isCandidatePath (lowerStr r.path).toList = true
      · exact Or.inr ⟨hc, r.path, by rw [onRequest_candidate m r hm he hc]⟩
      · rw [Bool.not_eq_true] at hc
        by_cases hd : isDocumentPath (lowerStr r.path).toList = true
        · exact Or.inl (by rw [onRequest_document m r hm he hc hd])
        · rw [Bool.not_eq_true] at hd
          exact Or.inl (by rw [onRequest_unmatched m r hm he hc hd])
  · rw [Bool.not_eq_true] at hm
    exact Or.inl (by rw [onRequest_nomarker m r hm])

theorem mem_apiRequests_foldl (reqs : List ReqInfo) (m : ApiMap) (info : ReqInfo) :
    info ∈ (reqs.foldl onRequest m).apiRequests ↔
      info ∈ m.apiRequests ∨ (info ∈ reqs ∧ hasApiMarker info.url = true) := by
  induction reqs generalizing m with
  | nil => simp
  | cons r rs ih =>
    rw [List.foldl_cons, ih]
    rw [onRequest_apiRequests]
    by_cases hm : hasApiMarker r.url = true
    · rw [if_pos hm]
      rw [mem_setAdd]
      constructor
      · rintro ((h | rfl) | h)
        · exact Or.inl h
        · exact Or.inr ⟨List.mem_cons_self _ _, hm⟩
        · exact Or.inr ⟨List.mem_cons_of_mem _ h.1, h.2⟩
      · rintro (h | ⟨hmem, hmark⟩)
        · exact Or.inl (Or.inl h)
        · rcases List.mem_cons.mp hmem with rfl | h
          · exact Or.inl (Or.inr rfl)
          · exact Or.inr ⟨h, hmark⟩
    · rw [if_neg hm]
      have hm' : hasApiMarker r.url = false := by simpa using hm
      constructor
      · rintro (h | h)
        · exact Or.inl h
        · exact Or.inr ⟨List.mem_cons_of_mem _ h.1, h.2⟩
      · rintro (h | ⟨hmem, hmark⟩)
        · exact Or.inl h
        · rcases List.mem_cons.mp hmem with rfl | h
          · exact absurd hmark (by simp [hm'])
          · exact Or.inr ⟨h, hmark⟩

theorem documentEndpoints_onRequest_cases (m : ApiMap) (r : ReqInfo) :
    (onRequest m r).documentEndpoints = m.documentEndpoints ∨
      (isDocumentPath (lowerStr r.path).toList = true ∧
        ∃ k, (onRequest m r).documentEndpoints = jsAssign m.documentEndpoints k r) := by
  by_cases hm : hasApiMarker r.url = true
  · by_cases he : isExportPath (lowerStr r.path).toList = true
    · rcases hft : findTab (lowerStr r.path).toList with _ | w
      · exact Or.inl (by rw [onRequest_export_none m r hm he hft])
      · exact Or.inl (by rw [onRequest_export_some m r w hm he hft])
    · rw [Bool.not_eq_true] at he
      by_cases hc : isCandidatePath (lowerStr r.path).toList = true
      · exact Or.inl (by rw [onRequest_candidate m r hm he hc])
      · rw [Bool.not_eq_true] at hc
        by_cases hd : isDocumentPath (lowerStr r.path).toList = true
        · exact Or.inr ⟨hd, r.path, by rw [onRequest_document m r hm he hc hd]⟩
        · rw [Bool.not_eq_true] at hd
          exact Or.inl (by rw [onRequest_unmatched m r hm he hc hd])
  · rw [Bool.not_eq_true] at hm
    exact Or.inl (by rw [onRequest_nomarker m r hm])

/-- Property: no key of the JS map `g` holds `info` as its value. -/
def NotValue (g : JsMap) (info : ReqInfo) : Prop :=
  ∀ k, jsLookup g k ≠ some info

theorem notValue_foldl (reqs : List ReqInfo) (m : ApiMap) (info : ReqInfo)
    (hne : isExportPath (lowerStr info.path).toList = false)
    (hnc : isCandidatePath (lowerStr info.path).toList = false)
    (hnd : isDocumentPath (lowerStr info.path).toList = false)
    (h1 : NotValue m.exportEndpoints info)
    (h2 : NotValue m.candidateEndpoints info)
    (h3 : NotValue m.documentEndpoints info) :
    NotValue (reqs.foldl onRequest m).exportEndpoints info ∧
      NotValue (reqs.foldl onRequest m).candidateEndpoints info ∧
      NotValue (reqs.foldl onRequest m).documentEndpoints info := by
  induction reqs generalizing m with
  | nil => exact ⟨h1, h2, h3⟩
  | cons r rs ih =>
    rw [List.foldl_cons]
    apply ih
    · rcases exportEndpoints_onRequest_cases m r with heq | ⟨hexp, k, heq⟩
      · rw [heq]; exact h1
      · rw [heq]; intro k' hk'
        rcases jsLookup_jsAssign_cases _ _ _ _ _ hk' with heqr | hold
        · subst heqr
          exact absurd hexp (by rw [hne]; simp)
        · exact h1 k' hold
    · rcases candidateEndpoints_onRequest_cases m r with heq | ⟨hcand, k, heq⟩
      · rw [heq]; exact h2
      · rw [heq]; intro k' hk'
        rcases jsLookup_jsAssign_cases _ _ _ _ _ hk' with heqr | hold
        · subst heqr
          exact absurd hcand (by rw [hnc]; simp)
        · exact h2 k' hold
    · rcases documentEndpoints_onRequest_cases m r with heq | ⟨hdoc, k, heq⟩
      · rw [heq]; exact h3
      · rw [heq]; intro k' hk'
        rcases jsLookup_jsAssign_cases _ _ _ _ _ hk' with heqr | hold
        · subst heqr
          exact absurd hdoc (by rw [hnd]; simp)
        · exact h3 k' hold

/-! ## Claim C1: export classification and its keying -/

/-- C1. Every observed request whose URL carries an API marker and whose
lowercased path contains `export`, `download` or `excel` is placed in
`exportEndpoints`: when some report-tab vocabulary word occurs in the
lowercased path, the key is the word found by the regex's leftmost
first-alternative match; otherwise the key is the raw path. -/
theorem export_request_lands_in_exportEndpoints (m : ApiMap) (info : ReqInfo)
    (hmark : hasApiMarker info.url = true)
    (hexp : isExportPath (lowerStr info.path).toList = true) :
    ((∃ w ∈ tabWords, containsSub (lowerStr info.path).toList w = true) →
      ∃ w, findTab (lowerStr info.path).toList = some w ∧
        jsLookup (onRequest m info).exportEndpoints (String.mk w) = some info)
    ∧ ((∀ w ∈ tabWords, containsSub (lowerStr info.path).toList w = false) →
      jsLookup (onRequest m info).exportEndpoints info.path = some info) := by
  rcases hft : findTab (lowerStr info.path).toList with _ | w
  · constructor
    · rintro ⟨w, hw, hcw⟩
      have := (findTab_eq_none_iff _).mp hft w hw
      rw [hcw] at this
      exact absurd this (by simp)
    · intro _
      rw [onRequest_export_none m info hmark hexp hft]
      exact jsLookup_jsAssign_self _ _ _
  · constructor
    · intro _
      refine ⟨w, rfl, ?_⟩
      rw [onRequest_export_some m info w hmark hexp hft]
      exact jsLookup_jsAssign_self _ _ _
    · intro hall
      have : findTab (lowerStr info.path).toList = none :=
        (findTab_eq_none_iff _).mpr hall
      rw [hft] at this
      exact absurd this (by simp)

def c1reqA : ReqInfo :=
  ⟨"https://portal/api/TodaysExport", "GET", "/api/TodaysExport", ""⟩

def c1reqB : ReqInfo :=
  ⟨"https://portal/api/data/export", "GET", "/api/data/export", ""⟩

/-- Witness for C1: a request whose path contains the vocabulary word
`todays` is keyed by that word; one containing no vocabulary word is keyed
by its raw path. -/
theorem export_request_lands_in_exportEndpoints_witness :
    (∃ w, findTab (lowerStr c1reqA.path).toList = some w ∧
      jsLookup (onRequest ApiMap.empty c1reqA).exportEndpoints (String.mk w) =
        some c1reqA)
    ∧ jsLookup (onRequest ApiMap.empty c1reqB).exportEndpoints c1reqB.path =
        some c1reqB := by
  constructor
  · exact (export_request_lands_in_exportEndpoints ApiMap.empty c1reqA
      (by decide) (by decide)).1 (by decide)
  · exact (export_request_lands_in_exportEndpoints ApiMap.empty c1reqB
      (by decide) (by decide)).2 (by decide)

/-! ## Claim C2: export keyword takes precedence over candidate keyword -/

/-- C2. Classification is first-match-wins: a request whose lowercased path
contains both an export keyword and `candidate` goes to the export group and
leaves the candidate group untouched. -/
theorem export_precedes_candidate (m : ApiMap) (info : ReqInfo)
    (hmark : hasApiMarker info.url = true)
    (hexp : isExportPath (lowerStr info.path).toList = true)
    (_hcand : containsSub (lowerStr info.path).toList "candidate".toList = true) :
    (∃ k, jsLookup (onRequest m info).exportEndpoints k = some info)
    ∧ (onRequest m info).candidateEndpoints = m.candidateEndpoints := by
  rcases hft : findTab (lowerStr info.path).toList with _ | w
  · rw [onRequest_export_none m info hmark hexp hft]
    exact ⟨⟨info.path, jsLookup_jsAssign_self _ _ _⟩, rfl⟩
  · rw [onRequest_export_some m info w hmark hexp hft]
    exact ⟨⟨String.mk w, jsLookup_jsAssign_self _ _ _⟩, rfl⟩

def c2req : ReqInfo :=
  ⟨"https://portal/api/candidate/123/export", "GET", "/api/candidate/123/export", ""⟩

/-- Witness for C2 at the spec's own example path `/api/candidate/123/export`. -/
theorem export_precedes_candidate_witness :
    (∃ k, jsLookup (onRequest ApiMap.empty c2req).exportEndpoints k = some c2req)
    ∧ (onRequest ApiMap.empty c2req).candidateEndpoints =
        ApiMap.empty.candidateEndpoints :=
  export_precedes_candidate ApiMap.empty c2req (by decide) (by decide) (by decide)

/-! ## Claim C3: contents of the unclassified `endpoints` list -/

def c3req : ReqInfo :=
  ⟨"https://portal/api/export/data", "GET", "/api/export/data", ""⟩

/-- C3 counterexample: the handler adds every API request to the
`apiRequests` set before classifying it, so a request that was classified
into `exportEndpoints` also appears in the persisted `endpoints` list —
contradicting the claim that a grouped request does not appear there. -/
theorem classified_request_still_in_endpoints_list :
    jsLookup (observeAll [c3req]).exportEndpoints "/api/export/data" = some c3req
    ∧ savedEndpoints [c3req] = [c3req] := by
  constructor
  · rfl
  · rfl

/-- C3 amended: the persisted `endpoints` list contains exactly the observed
requests that carry an API marker — including those that were also placed in
a group — and a request whose lowercased path matches no classification
keyword appears in no group. -/
theorem endpoints_list_exact_contents (reqs : List ReqInfo) (info : ReqInfo) :
    (info ∈ savedEndpoints reqs ↔ info ∈ reqs ∧ hasApiMarker info.url = true)
    ∧ (isExportPath (lowerStr info.path).toList = false →
       isCandidatePath (lowerStr info.path).toList = false →
       isDocumentPath (lowerStr info.path).toList = false →
       ∀ k, jsLookup (observeAll reqs).exportEndpoints k ≠ some info ∧
            jsLookup (observeAll reqs).candidateEndpoints k ≠ some info ∧
            jsLookup (observeAll reqs).documentEndpoints k ≠ some info) := by
  constructor
  · rw [savedEndpoints, observeAll, mem_apiRequests_foldl]
    simp [ApiMap.empty]
  · intro hne hnc hnd k
    have h := notValue_foldl reqs ApiMap.empty info hne hnc hnd
      (by intro k h; simp [ApiMap.empty, jsLookup] at h)
      (by intro k h; simp [ApiMap.empty, jsLookup] at h)
      (by intro k h; simp [ApiMap.empty, jsLookup] at h)
    exact ⟨h.1 k, h.2.1 k, h.2.2 k⟩

/-- Witness for C3's amended theorem: an unmatched request `/api/other/list`
is in the endpoints list and in no group. -/
theorem endpoints_list_exact_contents_witness :
    ((⟨"https://portal/api/other/list", "GET", "/api/other/list", ""⟩ : ReqInfo) ∈
        savedEndpoints [⟨"https://portal/api/other/list", "GET", "/api/other/list", ""⟩]
      ↔ (⟨"https://portal/api/other/list", "GET", "/api/other/list", ""⟩ : ReqInfo) ∈
          [(⟨"https://portal/api/other/list", "GET", "/api/other/list", ""⟩ : ReqInfo)]
        ∧ hasApiMarker "https://portal/api/other/list" = true)
    ∧ (jsLookup (observeAll
        [⟨"https://portal/api/other/list", "GET", "/api/other/list", ""⟩]).candidateEndpoints
        "/api/other/list" ≠ some ⟨"https://portal/api/other/list", "GET", "/api/other/list", ""⟩) := by
  refine ⟨(endpoints_list_exact_contents _ _).1, ?_⟩
  exact ((endpoints_list_exact_contents
    [⟨"https://portal/api/other/list", "GET", "/api/other/list", ""⟩]
    ⟨"https://portal/api/other/list", "GET", "/api/other/list", ""⟩).2
    (by decide) (by decide) (by decide) "/api/other/list").2.1

/-! ## Lemmas for the OTP scan -/

theorem boundedSixAt_nil (prev : Option Char) (i : Nat) :
    boundedSixAt prev [] i = false := by
  simp [boundedSixAt, sixDigitsHere]

theorem boundedSixAt_zero (prev : Option Char) (cs : List Char) :
    boundedSixAt prev cs 0 = (prevBoundary prev && sixDigitsHere cs) := by
  simp [boundedSixAt, prevCharAt]

theorem boundedSixAt_succ (prev : Option Char) (c : Char) (t : List Char) (i : Nat) :
    boundedSixAt prev (c :: t) (i + 1) = boundedSixAt (some c) t i := by
  cases i with
  | zero => rfl
  | succ j => rfl

theorem scanOtp_of_first (cs : List Char) (prev : Option Char) (i : Nat)
    (hb : boundedSixAt prev cs i = true)
    (hmin : ∀ j < i, boundedSixAt prev cs j = false) :
    scanOtp prev cs = some ((cs.drop i).take 6) := by
  induction cs generalizing prev i with
  | nil => rw [boundedSixAt_nil] at hb; exact absurd hb (by simp)
  | cons c t ih =>
    cases i with
    | zero =>
      rw [boundedSixAt_zero] at hb
      unfold scanOtp
      rw [if_pos hb]
      rfl
    | succ i' =>
      have h0 : boundedSixAt prev (c :: t) 0 = false := hmin 0 (Nat.succ_pos _)
      rw [boundedSixAt_zero] at h0
      unfold scanOtp
      rw [if_neg (by simp [h0])]
      rw [boundedSixAt_succ] at hb
      have hmin' : ∀ j < i', boundedSixAt (some c) t j = false := by
        intro j hj
        rw [← boundedSixAt_succ prev c t j]
        exact hmin (j + 1) (Nat.succ_lt_succ hj)
      rw [ih (some c) i' hb hmin']
      rfl

theorem scanOtp_eq_none (cs : List Char) (prev : Option Char)
    (h : ∀ i < cs.length, boundedSixAt prev cs i = false) :
    scanOtp prev cs = none := by
  induction cs generalizing prev with
  | nil => rfl
  | cons c t ih =>
    have h0 : boundedSixAt prev (c :: t) 0 = false := h 0 (Nat.succ_pos _)
    rw [boundedSixAt_zero] at h0
    unfold scanOtp
    rw [if_neg (by simp [h0])]
    apply ih
    intro i hi
    rw [← boundedSixAt_succ prev c t i]
    exact h (i + 1) (Nat.succ_lt_succ hi)

theorem scanOtp_some_six_digits (cs : List Char) (prev : Option Char)
    (r : List Char) (h : scanOtp prev cs = some r) :
    r.length = 6 ∧ r.all Char.isDigit = true := by
  induction cs generalizing prev with
  | nil => exact absurd h (by simp [scanOtp])
  | cons c t ih =>
    unfold scanOtp at h
    split at h
    · rename_i hcond
      have hsplit : prevBoundary prev = true ∧ sixDigitsHere (c :: t) = true := by
        simpa using hcond
      have h2 := hsplit.2
      unfold sixDigitsHere at h2
      simp only [Bool.and_eq_true, decide_eq_true_eq] at h2
      have hr : r = (c :: t).take 6 := (Option.some.inj h).symm
      subst hr
      exact ⟨h2.1.1, h2.1.2⟩
    · exact ih (some c) h

/-! ## Claim C4: OTP extraction takes the first word-bounded 6-digit match -/

/-- C4. The OTP extraction of `getGmailOtp` returns the leftmost word-bounded
six-digit match of the concatenated email text: on
`"Your code is 482913 today"` it returns `"482913"`; whenever position `i` is
the first position at which `\b\d{6}\b` matches (in particular, when two
six-digit numbers occur, the first one), the extracted code is the six digits
at `i`; and when no position of the text matches, it fails with the
documented error instead of returning a value. -/
theorem getGmailOtp_first_six_digit_match :
    getGmailOtpExtract "Your code is 482913 today" = .ok "482913"
    ∧ (∀ s : String, ∀ i : Nat, boundedSixAt none s.toList i = true →
        (∀ j < i, boundedSixAt none s.toList j = false) →
        getGmailOtpExtract s = .ok (String.mk ((s.toList.drop i).take 6)))
    ∧ (∀ s : String, (∀ i < s.toList.length, boundedSixAt none s.toList i = false) →
        getGmailOtpExtract s =
          .error "OTP code not found in email body (expected 6-digit code)") := by
  refine ⟨rfl, ?_, ?_⟩
  · intro s i hb hmin
    unfold getGmailOtpExtract
    rw [scanOtp_of_first s.toList none i hb hmin]
  · intro s h
    unfold getGmailOtpExtract
    rw [scanOtp_eq_none s.toList none h]

/-- Witness for C4: a text whose first word-bounded six-digit run starts at
index 2 yields exactly those six digits, and a text with no six-digit run
yields the error. -/
theorem getGmailOtp_first_six_digit_match_witness :
    getGmailOtpExtract "a 123456 and 654321" =
      .ok (String.mk ((("a 123456 and 654321" : String).toList.drop 2).take 6))
    ∧ getGmailOtpExtract "no code here 12345" =
        .error "OTP code not found in email body (expected 6-digit code)" := by
  constructor
  · exact getGmailOtp_first_six_digit_match.2.1 "a 123456 and 654321" 2
      (by decide) (by decide)
  · exact getGmailOtp_first_six_digit_match.2.2 "no code here 12345" (by decide)

/-! ## Claim C5: session rotation keeps exactly the three newest files -/

theorem rotateSessions_eq_filter (dir : List SFile)
    (hjson : ∀ f ∈ dir, strEndsWith f.name ".json" = true) :
    rotateSessions dir =
      dir.filter (fun f =>
        !((((List.insertionSort mtimeGe dir).drop 3).map SFile.name).contains f.name)) := by
  simp only [rotateSessions]
  rw [List.filter_eq_self.mpr hjson]

/-- C5. With five session files of pairwise distinct names and modification
times, `rotateSessions` leaves exactly three files, all from the original
directory, and every survivor is strictly newer than every deleted file —
i.e. exactly the three newest remain. -/
theorem rotateSessions_keeps_three_newest (dir : List SFile)
    (hlen : dir.length = 5)
    (hnames : (dir.map SFile.name).Nodup)
    (hmtimes : (dir.map SFile.mtime).Nodup)
    (hjson : ∀ f ∈ dir, strEndsWith f.name ".json" = true) :
    (rotateSessions dir).length = 3
    ∧ (∀ f ∈ rotateSessions dir, f ∈ dir)
    ∧ (∀ f ∈ rotateSessions dir, ∀ g ∈ dir, g ∉ rotateSessions dir →
        g.mtime < f.mtime) := by
  have hrot := rotateSessions_eq_filter dir hjson
  set sorted := List.insertionSort mtimeGe dir with hsorted
  set p : SFile → Bool :=
    fun f => !(((sorted.drop 3).map SFile.name).contains f.name) with hp
  have hperm : List.Perm sorted dir := List.perm_insertionSort mtimeGe dir
  have hsort : List.Sorted mtimeGe sorted := List.sorted_insertionSort mtimeGe dir
  have hslen : sorted.length = 5 := by rw [hperm.length_eq, hlen]
  have hsnames : (sorted.map SFile.name).Nodup :=
    ((hperm.map SFile.name).nodup_iff).mpr hnames
  have hsmtimes : (sorted.map SFile.mtime).Nodup :=
    ((hperm.map SFile.mtime).nodup_iff).mpr hmtimes
  have hsplit : sorted.take 3 ++ sorted.drop 3 = sorted := List.take_append_drop 3 sorted
  have hcross_le : ∀ a ∈ sorted.take 3, ∀ b ∈ sorted.drop 3, mtimeGe a b := by
    have h1 := hsort
    rw [← hsplit] at h1
    exact (List.pairwise_append.mp h1).2.2
  have hcross_ne : ∀ a ∈ sorted.take 3, ∀ b ∈ sorted.drop 3, a.mtime ≠ b.mtime := by
    have h1 : List.Pairwise (fun a b : SFile => a.mtime ≠ b.mtime) sorted :=
      List.pairwise_map.mp hsmtimes
    rw [← hsplit] at h1
    exact (List.pairwise_append.mp h1).2.2
  have hname_disj : ∀ a ∈ sorted.take 3, ∀ b ∈ sorted.drop 3, a.name ≠ b.name := by
    have h1 : List.Pairwise (fun a b : SFile => a.name ≠ b.name) sorted :=
      List.pairwise_map.mp hsnames
    rw [← hsplit] at h1
    exact (List.pairwise_append.mp h1).2.2
  have hp_take : ∀ f ∈ sorted.take 3, p f = true := by
    intro f hf
    have hnm : f.name ∉ (sorted.drop 3).map SFile.name := by
      intro hmem
      rcases List.mem_map.mp hmem with ⟨g, hg, hgname⟩
      exact hname_disj f hf g hg hgname.symm
    simpa [hp] using hnm
  have hp_drop : ∀ f ∈ sorted.drop 3, p f = false := by
    intro f hf
    have hnm : f.name ∈ (sorted.drop 3).map SFile.name := List.mem_map_of_mem _ hf
    simpa [hp] using hnm
  have hmem_rot : ∀ f, f ∈ rotateSessions dir ↔ f ∈ sorted.take 3 := by
    intro f
    rw [hrot, List.mem_filter]
    constructor
    · rintro ⟨hfd, hpf⟩
      have hfs : f ∈ sorted := hperm.mem_iff.mpr hfd
      rw [← hsplit] at hfs
      rcases List.mem_append.mp hfs with h | h
      · exact h
      · rw [hp_drop f h] at hpf
        exact absurd hpf (by simp)
    · intro hf
      refine ⟨?_, hp_take f hf⟩
      have hfs : f ∈ sorted := by
        rw [← hsplit]
        exact List.mem_append.mpr (Or.inl hf)
      exact hperm.mem_iff.mp hfs
  have htlen : (sorted.take 3).length = 3 := by
    rw [List.length_take, hslen]
    decide
  refine ⟨?_, ?_, ?_⟩
  · rw [hrot, ← List.countP_eq_length_filter]
    have hcnt : List.countP p dir = List.countP p sorted := (hperm.countP_eq p).symm
    rw [hcnt, ← hsplit, List.countP_append]
    have h1 : List.countP p (sorted.take 3) = (sorted.take 3).length :=
      List.countP_eq_length.mpr (by intro a ha; simpa using hp_take a ha)
    have h2 : List.countP p (sorted.drop 3) = 0 :=
      List.countP_eq_zero.mpr (by intro a ha; simp [hp_drop a ha])
    rw [h1, h2, htlen]
  · intro f hf
    have hft := (hmem_rot f).mp hf
    have hfs : f ∈ sorted := by
      rw [← hsplit]
      exact List.mem_append.mpr (Or.inl hft)
    exact hperm.mem_iff.mp hfs
  · intro f hf g hg hgnot
    have hft : f ∈ sorted.take 3 := (hmem_rot f).mp hf
    have hgd : g ∈ sorted.drop 3 := by
      have hgs : g ∈ sorted := hperm.mem_iff.mpr hg
      rw [← hsplit] at hgs
      rcases List.mem_append.mp hgs with h | h
      · exact absurd ((hmem_rot g).mpr h) hgnot
      · exact h
    have hle : g.mtime ≤ f.mtime := hcross_le f hft g hgd
    have hne : f.mtime ≠ g.mtime := hcross_ne f hft g hgd
    exact lt_of_le_of_ne hle hne.symm

/-- Witness for C5 on a concrete directory of five session files. -/
theorem rotateSessions_keeps_three_newest_witness :
    (rotateSessions [⟨"a.json", 10⟩, ⟨"b.json", 50⟩, ⟨"c.json", 30⟩,
        ⟨"d.json", 20⟩, ⟨"e.json", 40⟩]).length = 3
    ∧ (∀ f ∈ rotateSessions [⟨"a.json", 10⟩, ⟨"b.json", 50⟩, ⟨"c.json", 30⟩,
        ⟨"d.json", 20⟩, ⟨"e.json", 40⟩],
        f ∈ [(⟨"a.json", 10⟩ : SFile), ⟨"b.json", 50⟩, ⟨"c.json", 30⟩,
          ⟨"d.json", 20⟩, ⟨"e.json", 40⟩])
    ∧ (∀ f ∈ rotateSessions [⟨"a.json", 10⟩, ⟨"b.json", 50⟩, ⟨"c.json", 30⟩,
        ⟨"d.json", 20⟩, ⟨"e.json", 40⟩],
        ∀ g ∈ [(⟨"a.json", 10⟩ : SFile), ⟨"b.json", 50⟩, ⟨"c.json", 30⟩,
          ⟨"d.json", 20⟩, ⟨"e.json", 40⟩],
        g ∉ rotateSessions [⟨"a.json", 10⟩, ⟨"b.json", 50⟩, ⟨"c.json", 30⟩,
          ⟨"d.json", 20⟩, ⟨"e.json", 40⟩] →
        g.mtime < f.mtime) :=
  rotateSessions_keeps_three_newest
    [⟨"a.json", 10⟩, ⟨"b.json", 50⟩, ⟨"c.json", 30⟩, ⟨"d.json", 20⟩, ⟨"e.json", 40⟩]
    (by decide) (by decide) (by decide) (by decide)

/-! ## Claim C6: at most one run at a time -/

/-- C6. A trigger of any source (startup, interval timer, manual POST)
arriving while `runLock` is set is rejected synchronously: `doRun` returns
the `Run in progress` failure response, starts none of the run's steps — in
particular neither login/discovery (the browser session) nor the fetch
handoff — leaves the lock as it found it, and the invocation simply ends
with that response (nothing is queued or retried). -/
theorem doRun_rejects_overlapping_trigger (trig : TriggerSource) (env : RunEnv) :
    (doRun trig true env).response = ⟨false, "Run in progress"⟩
    ∧ (doRun trig true env).actions = []
    ∧ RunAction.login ∉ (doRun trig true env).actions
    ∧ RunAction.triggerFetch ∉ (doRun trig true env).actions
    ∧ (doRun trig true env).lockAfter = true := by
  refine ⟨rfl, rfl, ?_, ?_, rfl⟩
  · show RunAction.login ∉ ([] : List RunAction)
    simp
  · show RunAction.triggerFetch ∉ ([] : List RunAction)
    simp

/-! ## Claim C10: the lock is always released when a run ends -/

/-- C10. An invocation of `doRun` that actually acquires the lock (the lock
was free when it arrived) always leaves `runLock` cleared, whatever the body
did — returned success, returned the `Export trigger failed` response, or
threw in rotation, login/discovery or the fetch handoff: the `finally` block
releases the lock, so a later trigger is never rejected because of an
already-completed run. -/
theorem doRun_releases_lock (trig : TriggerSource) (env : RunEnv) :
    (doRun trig false env).lockAfter = false := by
  unfold doRun
  rcases hrb : runBody env with ⟨r, acts⟩
  rcases r with e | resp <;> simp [hrb]

/-! ## Claim C7: the login success vote -/

/-- Signal: one of the three authenticated-only selectors is visible. -/
def elementSignal (o : VerifyObs) : Bool :=
  o.tableVisible || o.dashboardVisible || o.bgvTextVisible

/-- Signal: some cookie looks authentication-related. -/
def cookieSignal (o : VerifyObs) : Bool :=
  o.cookies.any authLike

/-- Signal: URL matches the expected domain AND the body text looks logged
in. -/
def bodySignal (o : VerifyObs) : Bool :=
  urlForBodyCheck o.currentUrl && bodyLooksLoggedIn o.bodyText

def c7obs : VerifyObs :=
  ⟨"https://login.pwc.com/home", false, false, false, true, [], ""⟩

/-- C7 counterexample: a state whose URL matches the expected domain
(`pwc.com`) but with no visible authenticated-only element, no cookies and
empty body text still fails verification, so — contrary to the claim — the
URL-matches-domain signal alone is not sufficient; the URL check only pushes
an indicator string and never sets `loginSuccess`. -/
theorem url_alone_does_not_verify :
    urlIndicator c7obs.currentUrl = true
    ∧ verifyLoginSuccess c7obs = false
    ∧ verifyLogin c7obs =
        .error ⟨"Login incomplete - could not verify success", true⟩ := by
  refine ⟨by decide, by decide, rfl⟩

theorem selectorLoop_eval (tb db bg bv : Bool) :
    selectorLoop [(tb, false), (db, false), (bg, false), (bv, true)] =
      (tb || db || bg) := by
  cases tb <;> cases db <;> cases bg <;> simp [selectorLoop]

/-- C7 amended: login is verified if and only if an authenticated-only
element is visible, or an auth-looking cookie is present, or the URL matches
the expected domain AND the body text looks logged in.  The
URL-matches-domain observation alone is only an indicator and does not
verify.  When no signal holds, the flow throws the `Login incomplete`
failure after capturing a diagnostic screenshot. -/
theorem login_verified_iff_signals (o : VerifyObs) :
    verifyLoginSuccess o = (elementSignal o || cookieSignal o || bodySignal o)
    ∧ (verifyLoginSuccess o = false →
        verifyLogin o =
          .error ⟨"Login incomplete - could not verify success", true⟩) := by
  constructor
  · rcases o with ⟨u, tb, db, bg, bv, cks, bt⟩
    simp only [verifyLoginSuccess, elementSignal, cookieSignal, bodySignal]
    rw [selectorLoop_eval]
    rcases h0 : (tb || db || bg) with _ | _
    · cases cks with
      | nil => simp
      | cons c cs =>
        rcases hany : (c :: cs).any authLike with _ | _
        · simp [hany]
        · simp [hany]
    · simp
  · intro h
    simp [verifyLogin, h]

def c7obsB : VerifyObs :=
  ⟨"https://unrelated.example", false, false, false, true, [], ""⟩

/-- Witness for C7's amended theorem at a concrete failing observation. -/
theorem login_verified_iff_signals_witness :
    verifyLogin c7obsB =
      .error ⟨"Login incomplete - could not verify success", true⟩ :=
  (login_verified_iff_signals c7obsB).2 (by decide)

/-! ## Claim C8: OTP retries (3 attempts, 5 s apart, first success wins) -/

/-- C8. The mailbox OTP is fetched at most 3 times with a fixed 5000 ms delay
between attempts; if all 3 attempts fail, the loop throws the terminal
`Failed to fetch OTP from Gmail after 3 attempts` error (so the login run
fails with an OTP-retrieval error); if some attempt succeeds, the submitted
code is the first successful attempt's code; and a code produced by the
Gmail extraction regex is exactly 6 digits. -/
theorem otp_retry_budget (f : Nat → Except String String) :
    (fetchOtpWithRetry f).2.1 ≤ 3
    ∧ (∀ d ∈ (fetchOtpWithRetry f).2.2, d = 5000)
    ∧ (∀ e, (fetchOtpWithRetry f).1 = .error e → ∀ i < 3, ∃ e', f i = .error e')
    ∧ ((∀ i < 3, ∃ e', f i = .error e') → ∃ e, (fetchOtpWithRetry f).1 = .error e)
    ∧ (∀ c, (fetchOtpWithRetry f).1 = .ok c →
        submittedOtp f = .ok c ∧
          ∃ i, i < 3 ∧ f i = .ok c ∧ ∀ j < i, ∃ e', f j = .error e')
    ∧ (∀ texts : Nat → String, (∀ i, f i = getGmailOtpExtract (texts i)) →
        ∀ c, (fetchOtpWithRetry f).1 = .ok c →
          c.length = 6 ∧ c.toList.all Char.isDigit = true) := by
  have hdig : ∀ s c, getGmailOtpExtract s = .ok c →
      c.length = 6 ∧ c.toList.all Char.isDigit = true := by
    intro s c h
    unfold getGmailOtpExtract at h
    rcases hs : scanOtp none s.toList with _ | r
    · rw [hs] at h; exact absurd h (by simp)
    · rw [hs] at h
      have hc : c = String.mk r := (Except.ok.inj h).symm
      subst hc
      exact scanOtp_some_six_digits s.toList none r hs
  have hfail : (∀ i < 3, ∃ e', f i = .error e') →
      ∃ e, (fetchOtpWithRetry f).1 = .error e := by
    intro hall
    obtain ⟨e0, h0⟩ := hall 0 (by omega)
    obtain ⟨e1, h1⟩ := hall 1 (by omega)
    obtain ⟨e2, h2⟩ := hall 2 (by omega)
    exact ⟨"Failed to fetch OTP from Gmail after 3 attempts: " ++ e2,
      by simp [fetchOtpWithRetry, h0, h1, h2]⟩
  rcases h0 : f 0 with e0 | c0
  · rcases h1 : f 1 with e1 | c1
    · rcases h2 : f 2 with e2 | c2
      · refine ⟨?_, ?_, ?_, hfail, ?_, ?_⟩ <;>
          simp only [fetchOtpWithRetry, h0, h1, h2]
        · omega
        · intro d hd
          simp at hd
          rcases hd with rfl | rfl <;> rfl
        · intro e _ i hi
          have : i = 0 ∨ i = 1 ∨ i = 2 := by omega
          rcases this with rfl | rfl | rfl
          · exact ⟨e0, h0⟩
          · exact ⟨e1, h1⟩
          · exact ⟨e2, h2⟩
        · intro c hc
          exact absurd hc (by simp)
        · intro texts _ c hc
          exact absurd hc (by simp)
      · refine ⟨?_, ?_, ?_, hfail, ?_, ?_⟩ <;>
          simp only [fetchOtpWithRetry, h0, h1, h2]
        · omega
        · intro d hd
          simp at hd
          rcases hd with rfl | rfl <;> rfl
        · intro e he
          exact absurd he (by simp)
        · intro c hc
          have hcc : c2 = c := Except.ok.inj hc
          subst hcc
          refine ⟨by simp [submittedOtp, fetchOtpWithRetry, h0, h1, h2], 2, by omega, h2, ?_⟩
          intro j hj
          have : j = 0 ∨ j = 1 := by omega
          rcases this with rfl | rfl
          · exact ⟨e0, h0⟩
          · exact ⟨e1, h1⟩
        · intro texts htexts c hc
          have hcc : c2 = c := Except.ok.inj hc
          subst hcc
          exact hdig (texts 2) c2 ((htexts 2) ▸ h2)
    · refine ⟨?_, ?_, ?_, hfail, ?_, ?_⟩ <;>
        simp only [fetchOtpWithRetry, h0, h1]
      · omega
      · intro d hd
        simp at hd
        subst hd
        rfl
      · intro e he
        exact absurd he (by simp)
      · intro c hc
        have hcc : c1 = c := Except.ok.inj hc
        subst hcc
        refine ⟨by simp [submittedOtp, fetchOtpWithRetry, h0, h1], 1, by omega, h1, ?_⟩
        intro j hj
        have : j = 0 := by omega
        subst this
        exact ⟨e0, h0⟩
      · intro texts htexts c hc
        have hcc : c1 = c := Except.ok.inj hc
        subst hcc
        exact hdig (texts 1) c1 ((htexts 1) ▸ h1)
  · refine ⟨?_, ?_, ?_, hfail, ?_, ?_⟩ <;>
      simp only [fetchOtpWithRetry, h0]
    · omega
    · intro d hd
      exact absurd hd (by simp)
    · intro e he
      exact absurd he (by simp)
    · intro c hc
      have hcc : c0 = c := Except.ok.inj hc
      subst hcc
      refine ⟨by simp [submittedOtp, fetchOtpWithRetry, h0], 0, by omega, h0, ?_⟩
      intro j hj
      exact absurd hj (by omega)
    · intro texts htexts c hc
      have hcc : c0 = c := Except.ok.inj hc
      subst hcc
      exact hdig (texts 0) c0 ((htexts 0) ▸ h0)

/-- Witness for C8: with a mailbox that always fails, every one of the three
attempts is an error and the loop made 3 attempts. -/
theorem otp_retry_budget_witness :
    (fetchOtpWithRetry (fun _ => .error "boom")).2.1 ≤ 3
    ∧ (∃ e', (fun _ => (.error "boom" : Except String String)) 1 = .error e') := by
  refine ⟨(otp_retry_budget (fun _ => .error "boom")).1, ?_⟩
  exact (otp_retry_budget (fun _ => .error "boom")).2.2.1 _ rfl 1 (by omega)

/-! ## Claim C9: recording a request is idempotent for the endpoints list -/

theorem onRequest_idem (m : ApiMap) (r : ReqInfo) :
    onRequest (onRequest m r) r = onRequest m r := by
  by_cases hm : hasApiMarker r.url = true
  · by_cases he : isExportPath (lowerStr r.path).toList = true
    · rcases hft : findTab (lowerStr r.path).toList with _ | w
      · rw [onRequest_export_none m r hm he hft,
            onRequest_export_none _ r hm he hft]
        simp [setAdd_setAdd_same, jsAssign_jsAssign_same]
      · rw [onRequest_export_some m r w hm he hft,
            onRequest_export_some _ r w hm he hft]
        simp [setAdd_setAdd_same, jsAssign_jsAssign_same]
    · rw [Bool.not_eq_true] at he
      by_cases hc : isCandidatePath (lowerStr r.path).toList = true
      · rw [onRequest_candidate m r hm he hc,
            onRequest_candidate _ r hm he hc]
        simp [setAdd_setAdd_same, jsAssign_jsAssign_same]
      · rw [Bool.not_eq_true] at hc
        by_cases hd : isDocumentPath (lowerStr r.path).toList = true
        · rw [onRequest_document m r hm he hc hd,
              onRequest_document _ r hm he hc hd]
          simp [setAdd_setAdd_same, jsAssign_jsAssign_same]
        · rw [Bool.not_eq_true] at hd
          rw [onRequest_unmatched m r hm he hc hd,
              onRequest_unmatched _ r hm he hc hd]
          simp [setAdd_setAdd_same]
  · rw [Bool.not_eq_true] at hm
    rw [onRequest_nomarker m r hm, onRequest_nomarker m r hm]

theorem foldl_onRequest_replicate (n : Nat) (m : ApiMap) (r : ReqInfo) :
    (List.replicate (n + 1) r).foldl onRequest m = onRequest m r := by
  induction n generalizing m with
  | zero => rfl
  | succ k ih =>
    rw [List.replicate_succ, List.foldl_cons, ih, onRequest_idem]

/-- C9. Observing the same request record (same url, method, path and query)
`n ≥ 1` times — after any earlier observations — produces the same api map,
and in particular the same persisted `endpoints` list, as observing it once:
the `apiRequests` JS `Set` deduplicates by the stringified record and the
group maps re-assign the identical value to the identical key. -/
theorem savedEndpoints_idempotent (l : List ReqInfo) (r : ReqInfo) (n : Nat)
    (hn : 1 ≤ n) :
    observeAll (l ++ List.replicate n r) = observeAll (l ++ [r])
    ∧ savedEndpoints (l ++ List.replicate n r) = savedEndpoints (l ++ [r]) := by
  obtain ⟨k, rfl⟩ : ∃ k, n = k + 1 := ⟨n - 1, by omega⟩
  have h : observeAll (l ++ List.replicate (k + 1) r) = observeAll (l ++ [r]) := by
    unfold observeAll
    rw [List.foldl_append, List.foldl_append, foldl_onRequest_replicate]
    rfl
  exact ⟨h, by unfold savedEndpoints; rw [h]⟩

/-- Witness for C9: three observations of one request equal one observation. -/
theorem savedEndpoints_idempotent_witness :
    observeAll ([c3req] ++ List.replicate 3 c2req) = observeAll ([c3req] ++ [c2req])
    ∧ savedEndpoints ([c3req] ++ List.replicate 3 c2req) =
        savedEndpoints ([c3req] ++ [c2req]) :=
  savedEndpoints_idempotent [c3req] c2req 3 (by omega)

end PwcM1
